import Mathlib

/-!
# Verification of the classnote-ai storage layer

Shallow embedding of the storage layer of the `classnote-ai` repository:

* `Mem` embeds the `MemStorage` class of `server/storage.ts` (lines 32-199);
* `HMem` embeds the `MemStorage` class of the hybrid-storage module
  (`src/unnamed/part_001`, lines 232-399), whose `createUser` honours a
  caller-supplied `id`;
* `Hybrid` embeds the `HybridStorage` methods around `HMem`
  (`src/unnamed/part_001`, lines 39-230);
* `Sheets` embeds the user lookup of the Google-Sheets service
  (`server/googleSheets.ts`, second version, lines 310-339);
* `Persist` embeds `saveToFile`/`loadFromFile` of the hybrid module together
  with the effect of a `JSON.stringify`/`JSON.parse` round trip.

JavaScript `Map` objects are modelled as association lists in insertion
order (`JsMap`), with `Map.get`/`Map.set`/`Map.delete`/`Map.values`
translated to `jsGet`/`jsSet`/`jsDelete`/`jsValues`.  `new Date()` is
modelled by an explicit `now : Nat` argument to every method that reads the
clock.  `async` methods never await anything that can reject inside
`MemStorage`, so they are translated as pure functions; the hybrid methods
that await the Google-Sheets service take the outcome of that call as an
explicit `Except` argument.
-/

namespace ClassNote

/-- A JavaScript `Map<number, α>`: association list in insertion order. -/
abbrev JsMap (α : Type) := List (Nat × α)

/-- `Map.get(k)`. -/
def jsGet {α : Type} (m : JsMap α) (k : Nat) : Option α :=
  (m.find? (fun p => p.1 == k)).map (fun p => p.2)

/-- `Map.has(k)` (also the boolean result of `Map.delete(k)`). -/
def jsHasKey {α : Type} (m : JsMap α) (k : Nat) : Bool :=
  (m.find? (fun p => p.1 == k)).isSome

/-- `Map.set(k, v)`: replaces the binding in place when the key is present
(JS maps hold each key at most once, so replacing the first binding is the
general behaviour), otherwise appends the new binding at the end — JS maps
preserve insertion order. -/
def jsSet {α : Type} : JsMap α → Nat → α → JsMap α
  | [], k, v => [(k, v)]
  | e :: m, k, v => if e.1 == k then (k, v) :: m else e :: jsSet m k v

/-- The mutation performed by `Map.delete(k)`. -/
def jsDelete {α : Type} (m : JsMap α) (k : Nat) : JsMap α :=
  m.filter (fun p => p.1 != k)

/-- `Array.from(map.values())`, in insertion order. -/
def jsValues {α : Type} (m : JsMap α) : List α :=
  m.map (fun p => p.2)

/-! ## Entity records (fields as used by `server/storage.ts`, the routes
module and the Google-Sheets service; the `@shared/schema` file itself is
not part of the sources, so the field lists are those the code reads and
writes). -/

/-- A `User` row: `id`, `name`, `email`, `password`, `createdAt`. -/
structure User where
  id : Nat
  name : String
  email : String
  password : String
  createdAt : Nat
deriving DecidableEq, Repr

/-- An `InsertUser`.  The hybrid module's `createUser` reads an optional
`id` from it (`insertUser.id || this.userCurrentId++`), so the field is an
`Option Nat`; `some 0` is falsy in JS. -/
structure InsertUser where
  name : String
  email : String
  password : String
  id : Option Nat := none
deriving DecidableEq, Repr

/-- A `Recording` row, fields as built by `createRecording` and the upload
route: `title`, `filename`, `fileSize`, `fileFormat`, `duration`
(nullable), `status`, `transcribed`, `notesGenerated`, plus `id` and
`createdAt`. -/
structure Recording where
  id : Nat
  title : String
  filename : String
  fileSize : Nat
  fileFormat : String
  duration : Option Nat
  status : String
  transcribed : Bool
  notesGenerated : Bool
  createdAt : Nat
deriving DecidableEq, Repr

/-- An `InsertRecording`; `duration`, `transcribed` and `notesGenerated`
may be absent (the storage layer applies `|| null` and `|| false`). -/
structure InsertRecording where
  title : String
  filename : String
  fileSize : Nat
  fileFormat : String
  duration : Option Nat := none
  status : String
  transcribed : Option Bool := none
  notesGenerated : Option Bool := none
deriving DecidableEq, Repr

/-- A `Transcript` row: `id`, foreign key `recordingId`, `content`,
`createdAt`. -/
structure Transcript where
  id : Nat
  recordingId : Nat
  content : String
  createdAt : Nat
deriving DecidableEq, Repr

/-- An `InsertTranscript`. -/
structure InsertTranscript where
  recordingId : Nat
  content : String
deriving DecidableEq, Repr

/-- A `Note` row: `id`, foreign key `recordingId`, `content`, `createdAt`. -/
structure Note where
  id : Nat
  recordingId : Nat
  content : String
  createdAt : Nat
deriving DecidableEq, Repr

/-- An `InsertNote`. -/
structure InsertNote where
  recordingId : Nat
  content : String
deriving DecidableEq, Repr

/-- `insertRecording.duration || null`: JS `0` is falsy, so a duration of
`0` is stored as `null`. -/
def jsOrNull (d : Option Nat) : Option Nat :=
  match d with
  | some n => if n == 0 then none else some n
  | none => none

/-- `insertRecording.transcribed || false` on an optional boolean. -/
def jsOrFalse (b : Option Bool) : Bool :=
  match b with
  | some x => x
  | none => false

/-- The private state of a `MemStorage` instance: the four maps and the
four auto-increment counters. -/
structure St where
  users : JsMap User
  recordings : JsMap Recording
  transcripts : JsMap Transcript
  notes : JsMap Note
  userCurrentId : Nat
  recordingCurrentId : Nat
  transcriptCurrentId : Nat
  noteCurrentId : Nat
deriving DecidableEq, Repr

/-- The state after the `MemStorage` constructor: empty maps, all counters
`1`. -/
def St.init : St :=
  { users := [], recordings := [], transcripts := [], notes := []
    userCurrentId := 1, recordingCurrentId := 1
    transcriptCurrentId := 1, noteCurrentId := 1 }

/-! ## `MemStorage` of `server/storage.ts` (lines 32-199) -/

namespace Mem

/-- `getUser(id)`. -/
def getUser (id : Nat) (st : St) : Option User :=
  jsGet st.users id

/-- `getUserByUsername(username)`; kept for backward compatibility, it
compares `user.email === username`. -/
def getUserByUsername (username : String) (st : St) : Option User :=
  (jsValues st.users).find? (fun u => u.email == username)

/-- `getUserByEmail(email)`. -/
def getUserByEmail (email : String) (st : St) : Option User :=
  (jsValues st.users).find? (fun u => u.email == email)

/-- `createUser(insertUser)`: takes the next counter value as id (any `id`
field of `insertUser` is overridden by the spread), stamps `createdAt`, and
stores the user. -/
def createUser (now : Nat) (ins : InsertUser) (st : St) : User × St :=
  let id := st.userCurrentId
  let user : User := { id := id, name := ins.name, email := ins.email
                       password := ins.password, createdAt := now }
  (user, { st with users := jsSet st.users id user, userCurrentId := id + 1 })

/-- `createRecording(insertRecording)`. -/
def createRecording (now : Nat) (ins : InsertRecording) (st : St) :
    Recording × St :=
  let id := st.recordingCurrentId
  let r : Recording :=
    { id := id, title := ins.title, filename := ins.filename
      fileSize := ins.fileSize, fileFormat := ins.fileFormat
      duration := jsOrNull ins.duration, status := ins.status
      transcribed := jsOrFalse ins.transcribed
      notesGenerated := jsOrFalse ins.notesGenerated, createdAt := now }
  (r, { st with recordings := jsSet st.recordings id r
                recordingCurrentId := id + 1 })

/-- `getRecording(id)`. -/
def getRecording (id : Nat) (st : St) : Option Recording :=
  jsGet st.recordings id

/-- Stable insertion of a recording into a list already sorted by
`createdAt` descending: the element goes after every element with a
greater-or-equal timestamp, matching the stable JS
`sort((a, b) => b.createdAt.getTime() - a.createdAt.getTime())`. -/
def insertDesc (x : Recording) : List Recording → List Recording
  | [] => [x]
  | y :: ys => if y.createdAt < x.createdAt then x :: y :: ys
               else y :: insertDesc x ys

/-- Stable sort by `createdAt` descending. -/
def sortDesc (l : List Recording) : List Recording :=
  l.foldl (fun acc x => insertDesc x acc) []

/-- `getAllRecordings()`: the stored recordings sorted newest first. -/
def getAllRecordings (st : St) : List Recording :=
  sortDesc (jsValues st.recordings)

/-- `updateRecordingStatus(id, status)`. -/
def updateRecordingStatus (id : Nat) (status : String) (st : St) :
    Option Recording × St :=
  match jsGet st.recordings id with
  | none => (none, st)
  | some r =>
    let r' := { r with status := status }
    (some r', { st with recordings := jsSet st.recordings id r' })

/-- `updateRecordingTranscribed(id, transcribed)`. -/
def updateRecordingTranscribed (id : Nat) (transcribed : Bool) (st : St) :
    Option Recording × St :=
  match jsGet st.recordings id with
  | none => (none, st)
  | some r =>
    let r' := { r with transcribed := transcribed }
    (some r', { st with recordings := jsSet st.recordings id r' })

/-- `updateRecordingNotesGenerated(id, notesGenerated)`. -/
def updateRecordingNotesGenerated (id : Nat) (notesGenerated : Bool)
    (st : St) : Option Recording × St :=
  match jsGet st.recordings id with
  | none => (none, st)
  | some r =>
    let r' := { r with notesGenerated := notesGenerated }
    (some r', { st with recordings := jsSet st.recordings id r' })

/-- `updateRecordingTitle(id, title)`. -/
def updateRecordingTitle (id : Nat) (title : String) (st : St) :
    Option Recording × St :=
  match jsGet st.recordings id with
  | none => (none, st)
  | some r =>
    let r' := { r with title := title }
    (some r', { st with recordings := jsSet st.recordings id r' })

/-- The transcript cascade inside `deleteRecording`: find the first
transcript with the given `recordingId` and, if present, delete it by its
`id`. -/
def transcriptCascade (id : Nat) (st : St) : St :=
  match (jsValues st.transcripts).find? (fun t => t.recordingId == id) with
  | some t => { st with transcripts := jsDelete st.transcripts t.id }
  | none => st

/-- The note cascade inside `deleteRecording`: find the first note with
the given `recordingId` and, if present, delete it by its `id`. -/
def noteCascade (id : Nat) (st : St) : St :=
  match (jsValues st.notes).find? (fun n => n.recordingId == id) with
  | some n => { st with notes := jsDelete st.notes n.id }
  | none => st

/-- `deleteRecording(id)`: returns `false` when the recording is missing;
otherwise deletes the first transcript and the first note found with that
`recordingId` (by key `transcript.id` / `note.id`), then deletes the
recording, returning the boolean result of `Map.delete`. -/
def deleteRecording (id : Nat) (st : St) : Bool × St :=
  match jsGet st.recordings id with
  | none => (false, st)
  | some _ =>
    let st2 := noteCascade id (transcriptCascade id st)
    (jsHasKey st2.recordings id,
     { st2 with recordings := jsDelete st2.recordings id })

/-- `createTranscript(insertTranscript)`. -/
def createTranscript (now : Nat) (ins : InsertTranscript) (st : St) :
    Transcript × St :=
  let id := st.transcriptCurrentId
  let t : Transcript := { id := id, recordingId := ins.recordingId
                          content := ins.content, createdAt := now }
  (t, { st with transcripts := jsSet st.transcripts id t
                transcriptCurrentId := id + 1 })

/-- `getTranscriptByRecordingId(recordingId)`: linear scan over the values. -/
def getTranscriptByRecordingId (recordingId : Nat) (st : St) :
    Option Transcript :=
  (jsValues st.transcripts).find? (fun t => t.recordingId == recordingId)

/-- `createNote(insertNote)`. -/
def createNote (now : Nat) (ins : InsertNote) (st : St) : Note × St :=
  let id := st.noteCurrentId
  let n : Note := { id := id, recordingId := ins.recordingId
                    content := ins.content, createdAt := now }
  (n, { st with notes := jsSet st.notes id n, noteCurrentId := id + 1 })

/-- `getNoteByRecordingId(recordingId)`: linear scan over the values. -/
def getNoteByRecordingId (recordingId : Nat) (st : St) : Option Note :=
  (jsValues st.notes).find? (fun n => n.recordingId == recordingId)

/-- `updateNote(id, content)`. -/
def updateNote (id : Nat) (content : String) (st : St) :
    Option Note × St :=
  match jsGet st.notes id with
  | none => (none, st)
  | some n =>
    let n' := { n with content := content }
    (some n', { st with notes := jsSet st.notes id n' })

end Mem

/-! ## `MemStorage` of the hybrid-storage module (`src/unnamed/part_001`,
lines 232-399).  Identical to `Mem` except for `createUser`, which uses a
caller-supplied truthy `id` (`const id = insertUser.id ||
this.userCurrentId++`) and only increments the counter when it falls back
to it. -/

namespace HMem

/-- `getUser(id)`. -/
def getUser (id : Nat) (st : St) : Option User :=
  jsGet st.users id

/-- `getUserByUsername(username)`; compares `user.email === username`. -/
def getUserByUsername (username : String) (st : St) : Option User :=
  (jsValues st.users).find? (fun u => u.email == username)

/-- `getUserByEmail(email)`. -/
def getUserByEmail (email : String) (st : St) : Option User :=
  (jsValues st.users).find? (fun u => u.email == email)

/-- `createUser(insertUser)`: `const id = insertUser.id ||
this.userCurrentId++` — a truthy (present and nonzero) `insertUser.id` is
used as the id and the counter is untouched; otherwise the counter value
is used and incremented. -/
def createUser (now : Nat) (ins : InsertUser) (st : St) : User × St :=
  match ins.id with
  | some i =>
    if i == 0 then
      let id := st.userCurrentId
      let user : User := { id := id, name := ins.name, email := ins.email
                           password := ins.password, createdAt := now }
      (user, { st with users := jsSet st.users id user
                       userCurrentId := id + 1 })
    else
      let user : User := { id := i, name := ins.name, email := ins.email
                           password := ins.password, createdAt := now }
      (user, { st with users := jsSet st.users i user })
  | none =>
    let id := st.userCurrentId
    let user : User := { id := id, name := ins.name, email := ins.email
                         password := ins.password, createdAt := now }
    (user, { st with users := jsSet st.users id user
                     userCurrentId := id + 1 })

/-- `createRecording(insertRecording)`. -/
def createRecording (now : Nat) (ins : InsertRecording) (st : St) :
    Recording × St :=
  let id := st.recordingCurrentId
  let r : Recording :=
    { id := id, title := ins.title, filename := ins.filename
      fileSize := ins.fileSize, fileFormat := ins.fileFormat
      duration := jsOrNull ins.duration, status := ins.status
      transcribed := jsOrFalse ins.transcribed
      notesGenerated := jsOrFalse ins.notesGenerated, createdAt := now }
  (r, { st with recordings := jsSet st.recordings id r
                recordingCurrentId := id + 1 })

/-- `getRecording(id)`. -/
def getRecording (id : Nat) (st : St) : Option Recording :=
  jsGet st.recordings id

/-- `getAllRecordings()`: same stable sort by `createdAt` descending as in
`server/storage.ts`. -/
def getAllRecordings (st : St) : List Recording :=
  Mem.sortDesc (jsValues st.recordings)

/-- `updateRecordingStatus(id, status)`. -/
def updateRecordingStatus (id : Nat) (status : String) (st : St) :
    Option Recording × St :=
  match jsGet st.recordings id with
  | none => (none, st)
  | some r =>
    let r' := { r with status := status }
    (some r', { st with recordings := jsSet st.recordings id r' })

/-- `updateRecordingTranscribed(id, transcribed)`. -/
def updateRecordingTranscribed (id : Nat) (transcribed : Bool) (st : St) :
    Option Recording × St :=
  match jsGet st.recordings id with
  | none => (none, st)
  | some r =>
    let r' := { r with transcribed := transcribed }
    (some r', { st with recordings := jsSet st.recordings id r' })

/-- `updateRecordingNotesGenerated(id, notesGenerated)`. -/
def updateRecordingNotesGenerated (id : Nat) (notesGenerated : Bool)
    (st : St) : Option Recording × St :=
  match jsGet st.recordings id with
  | none => (none, st)
  | some r =>
    let r' := { r with notesGenerated := notesGenerated }
    (some r', { st with recordings := jsSet st.recordings id r' })

/-- `updateRecordingTitle(id, title)`. -/
def updateRecordingTitle (id : Nat) (title : String) (st : St) :
    Option Recording × St :=
  match jsGet st.recordings id with
  | none => (none, st)
  | some r =>
    let r' := { r with title := title }
    (some r', { st with recordings := jsSet st.recordings id r' })

/-- The transcript cascade inside `deleteRecording` (same code as in
`server/storage.ts`). -/
def transcriptCascade (id : Nat) (st : St) : St :=
  match (jsValues st.transcripts).find? (fun t => t.recordingId == id) with
  | some t => { st with transcripts := jsDelete st.transcripts t.id }
  | none => st

/-- The note cascade inside `deleteRecording` (same code as in
`server/storage.ts`). -/
def noteCascade (id : Nat) (st : St) : St :=
  match (jsValues st.notes).find? (fun n => n.recordingId == id) with
  | some n => { st with notes := jsDelete st.notes n.id }
  | none => st

/-- `deleteRecording(id)`: same code as in `server/storage.ts`. -/
def deleteRecording (id : Nat) (st : St) : Bool × St :=
  match jsGet st.recordings id with
  | none => (false, st)
  | some _ =>
    let st2 := noteCascade id (transcriptCascade id st)
    (jsHasKey st2.recordings id,
     { st2 with recordings := jsDelete st2.recordings id })

/-- `createTranscript(insertTranscript)`. -/
def createTranscript (now : Nat) (ins : InsertTranscript) (st : St) :
    Transcript × St :=
  let id := st.transcriptCurrentId
  let t : Transcript := { id := id, recordingId := ins.recordingId
                          content := ins.content, createdAt := now }
  (t, { st with transcripts := jsSet st.transcripts id t
                transcriptCurrentId := id + 1 })

/-- `getTranscriptByRecordingId(recordingId)`. -/
def getTranscriptByRecordingId (recordingId : Nat) (st : St) :
    Option Transcript :=
  (jsValues st.transcripts).find? (fun t => t.recordingId == recordingId)

/-- `createNote(insertNote)`. -/
def createNote (now : Nat) (ins : InsertNote) (st : St) : Note × St :=
  let id := st.noteCurrentId
  let n : Note := { id := id, recordingId := ins.recordingId
                    content := ins.content, createdAt := now }
  (n, { st with notes := jsSet st.notes id n, noteCurrentId := id + 1 })

/-- `getNoteByRecordingId(recordingId)`. -/
def getNoteByRecordingId (recordingId : Nat) (st : St) : Option Note :=
  (jsValues st.notes).find? (fun n => n.recordingId == recordingId)

/-- `updateNote(id, content)`. -/
def updateNote (id : Nat) (content : String) (st : St) :
    Option Note × St :=
  match jsGet st.notes id with
  | none => (none, st)
  | some n =>
    let n' := { n with content := content }
    (some n', { st with notes := jsSet st.notes id n' })

end HMem

/-! ## `HybridStorage` (`src/unnamed/part_001`, lines 39-230)

The hybrid store wraps an `HMem.St` as `this.localStorage` and mirrors it
into a JSON file via `saveToFile`.  The file's content is the `data`
object written by `saveToFile` (the four entry arrays and the four
counters), i.e. exactly an `St`; the lossy effect of `JSON.stringify` /
`JSON.parse` on `Date` fields is modelled separately in `Persist`. -/

/-- The state of a `HybridStorage`: its `localStorage` member and the
local JSON file (`none` when the file does not exist). -/
structure HSt where
  localSt : St
  file : Option St
deriving DecidableEq, Repr

namespace Hybrid

/-- `saveToFile()`: writes the current `localStorage` data to the file. -/
def saveToFile (hst : HSt) : HSt :=
  { hst with file := some hst.localSt }

/-- `getUserByEmail(email)` of `HybridStorage`.  `sheetsRes` is the
outcome of the awaited `googleSheetsService.getUserByEmail(email)`; there
is no `try`/`catch` in this method, so a rejection propagates. -/
def getUserByEmail (useGoogleSheets : Bool)
    (sheetsRes : Except String (Option User)) (email : String) (st : St) :
    Except String (Option User) :=
  if useGoogleSheets then
    match sheetsRes with
    | .error e => .error e
    | .ok (some u) => .ok (some u)
    | .ok none => .ok (HMem.getUserByEmail email st)
  else
    .ok (HMem.getUserByEmail email st)

/-- `createUser(insertUser)` of `HybridStorage`.  `sheetsRes` is the
outcome of the awaited `googleSheetsService.createUser(insertUser)`.  On
success the user is also stored locally with the sheets-assigned id (no
`saveToFile` on that path); on failure the error is caught and the method
falls through to the local store followed by `saveToFile`. -/
def createUser (now : Nat) (useGoogleSheets : Bool)
    (sheetsRes : Except String User) (ins : InsertUser) (hst : HSt) :
    Except String (User × HSt) :=
  if useGoogleSheets then
    match sheetsRes with
    | .ok u =>
      let res := HMem.createUser now { ins with id := some u.id } hst.localSt
      .ok (u, { hst with localSt := res.2 })
    | .error _ =>
      let res := HMem.createUser now ins hst.localSt
      .ok (res.1, saveToFile { hst with localSt := res.2 })
  else
    let res := HMem.createUser now ins hst.localSt
    .ok (res.1, saveToFile { hst with localSt := res.2 })

end Hybrid

/-! ## Google-Sheets user lookup (`server/googleSheets.ts`, the
`GoogleSheetsService` with `isAvailable`, lines 310-339) -/

/-- A row of the `Users` sheet (`A2:E1000`): the five cells, with the
`parseInt(row[0], 10)` and `new Date(row[4])` parses of the id and
created-at cells abstracted to their parsed values. -/
structure SheetRow where
  idCell : Nat
  nameCell : String
  emailCell : String
  passwordCell : String
  createdCell : Nat
deriving DecidableEq, Repr

namespace Sheets

/-- The `User` built from a sheet row. -/
def rowToUser (row : SheetRow) : User :=
  { id := row.idCell, name := row.nameCell, email := row.emailCell
    password := row.passwordCell, createdAt := row.createdCell }

/-- `googleSheetsService.getUserByEmail(email)`: returns `undefined` when
the service is not initialized; the whole body is wrapped in a
`try`/`catch` that returns `undefined` on any error (`fetchRes` is the
outcome of the sheet-values API call); otherwise finds the first row
whose third cell equals the email. -/
def getUserByEmail (initialized : Bool)
    (fetchRes : Except String (List SheetRow)) (email : String) :
    Option User :=
  if !initialized then none
  else
    match fetchRes with
    | .error _ => none
    | .ok rows => (rows.find? (fun r => r.emailCell == email)).map rowToUser

end Sheets

/-! ## JSON persistence (`saveToFile`/`loadFromFile` of
`src/unnamed/part_001`, lines 72-110)

`saveToFile` writes `JSON.stringify(data)` where `data` holds the four
`Array.from(map.entries())` arrays and the four counters; `loadFromFile`
applies `JSON.parse` and rebuilds the maps with `new Map(entries)`.
`JSON.stringify` renders a `Date` as its ISO string and `JSON.parse` does
not revive it, so every `createdAt` field comes back as a `String`.  The
`L*` record types below are the shapes of the records after such a round
trip. -/

/-- Abstract injective rendering of `Date.toISOString()` for the date
modelled by tick `t`. -/
def isoStr (t : Nat) : String :=
  "1970-01-01T00:00:0" ++ toString t ++ "Z"

/-- A `User` after a JSON round trip: `createdAt` is now a string. -/
structure LUser where
  id : Nat
  name : String
  email : String
  password : String
  createdAt : String
deriving DecidableEq, Repr

/-- A `Recording` after a JSON round trip: `createdAt` is now a string. -/
structure LRecording where
  id : Nat
  title : String
  filename : String
  fileSize : Nat
  fileFormat : String
  duration : Option Nat
  status : String
  transcribed : Bool
  notesGenerated : Bool
  createdAt : String
deriving DecidableEq, Repr

/-- A `Transcript` after a JSON round trip. -/
structure LTranscript where
  id : Nat
  recordingId : Nat
  content : String
  createdAt : String
deriving DecidableEq, Repr

/-- A `Note` after a JSON round trip. -/
structure LNote where
  id : Nat
  recordingId : Nat
  content : String
  createdAt : String
deriving DecidableEq, Repr

/-- The `localStorage` state rebuilt by `loadFromFile`. -/
structure LSt where
  users : JsMap LUser
  recordings : JsMap LRecording
  transcripts : JsMap LTranscript
  notes : JsMap LNote
  userCurrentId : Nat
  recordingCurrentId : Nat
  transcriptCurrentId : Nat
  noteCurrentId : Nat
deriving DecidableEq, Repr

namespace Persist

/-- Effect of `JSON.stringify` then `JSON.parse` on a stored `User`. -/
def loadUser (u : User) : LUser :=
  { id := u.id, name := u.name, email := u.email, password := u.password
    createdAt := isoStr u.createdAt }

/-- Effect of `JSON.stringify` then `JSON.parse` on a stored `Recording`
(numbers, strings, booleans and `null` survive; the `Date` becomes its ISO
string). -/
def loadRecording (r : Recording) : LRecording :=
  { id := r.id, title := r.title, filename := r.filename
    fileSize := r.fileSize, fileFormat := r.fileFormat
    duration := r.duration, status := r.status, transcribed := r.transcribed
    notesGenerated := r.notesGenerated, createdAt := isoStr r.createdAt }

/-- Effect of the round trip on a stored `Transcript`. -/
def loadTranscript (t : Transcript) : LTranscript :=
  { id := t.id, recordingId := t.recordingId, content := t.content
    createdAt := isoStr t.createdAt }

/-- Effect of the round trip on a stored `Note`. -/
def loadNote (n : Note) : LNote :=
  { id := n.id, recordingId := n.recordingId, content := n.content
    createdAt := isoStr n.createdAt }

/-- `saveToFile` then `loadFromFile`: the entry arrays are serialized,
parsed back and rebuilt with `new Map(entries)` (insertion order and the
numeric keys survive), the counters are restored verbatim, and every
`createdAt` comes back as an ISO string. -/
def roundtrip (st : St) : LSt :=
  { users := st.users.map (fun p => (p.1, loadUser p.2))
    recordings := st.recordings.map (fun p => (p.1, loadRecording p.2))
    transcripts := st.transcripts.map (fun p => (p.1, loadTranscript p.2))
    notes := st.notes.map (fun p => (p.1, loadNote p.2))
    userCurrentId := st.userCurrentId
    recordingCurrentId := st.recordingCurrentId
    transcriptCurrentId := st.transcriptCurrentId
    noteCurrentId := st.noteCurrentId }

/-- `getRecording(id)` run on a reloaded state. -/
def lGetRecording (id : Nat) (lst : LSt) : Option LRecording :=
  jsGet lst.recordings id

/-- `getAllRecordings()` run on a reloaded state.  The comparator
`(a, b) => b.createdAt.getTime() - a.createdAt.getTime()` calls `getTime`
on each compared element; after the round trip `createdAt` is a `String`,
which has no `getTime`, so as soon as the sort compares anything (i.e. the
array has at least two elements) it throws a `TypeError`, modelled as
`none`; with at most one element the comparator is never invoked. -/
def lGetAllRecordings (lst : LSt) : Option (List LRecording) :=
  let vs := jsValues lst.recordings
  if vs.length ≤ 1 then some vs else none

end Persist

/-! ## Operation sequences

A client-visible storage operation of the common `IStorage` interface,
together with the clock value (`now`) observed by the creating methods.
`Mem.step`/`HMem.step` run one operation on the respective backend and
`Mem.run`/`HMem.run` run a whole sequence, collecting the returned
values. -/

/-- One `IStorage` call. -/
inductive Op where
  | getUser (id : Nat)
  | getUserByUsername (username : String)
  | getUserByEmail (email : String)
  | createUser (now : Nat) (ins : InsertUser)
  | createRecording (now : Nat) (ins : InsertRecording)
  | getRecording (id : Nat)
  | getAllRecordings
  | updateRecordingStatus (id : Nat) (status : String)
  | updateRecordingTranscribed (id : Nat) (transcribed : Bool)
  | updateRecordingNotesGenerated (id : Nat) (notesGenerated : Bool)
  | updateRecordingTitle (id : Nat) (title : String)
  | deleteRecording (id : Nat)
  | createTranscript (now : Nat) (ins : InsertTranscript)
  | getTranscriptByRecordingId (recordingId : Nat)
  | createNote (now : Nat) (ins : InsertNote)
  | getNoteByRecordingId (recordingId : Nat)
  | updateNote (id : Nat) (content : String)
deriving DecidableEq, Repr

/-- The value returned by one `IStorage` call. -/
inductive Ret where
  | maybeUser (u : Option User)
  | newUser (u : User)
  | maybeRecording (r : Option Recording)
  | newRecording (r : Recording)
  | allRecordings (l : List Recording)
  | deleted (b : Bool)
  | maybeTranscript (t : Option Transcript)
  | newTranscript (t : Transcript)
  | maybeNote (n : Option Note)
  | newNote (n : Note)
deriving DecidableEq, Repr

/-- Run one operation on the `server/storage.ts` `MemStorage`. -/
def Mem.step : Op → St → Ret × St
  | .getUser id, st => (.maybeUser (Mem.getUser id st), st)
  | .getUserByUsername u, st => (.maybeUser (Mem.getUserByUsername u st), st)
  | .getUserByEmail e, st => (.maybeUser (Mem.getUserByEmail e st), st)
  | .createUser now ins, st =>
    let p := Mem.createUser now ins st
    (.newUser p.1, p.2)
  | .createRecording now ins, st =>
    let p := Mem.createRecording now ins st
    (.newRecording p.1, p.2)
  | .getRecording id, st => (.maybeRecording (Mem.getRecording id st), st)
  | .getAllRecordings, st => (.allRecordings (Mem.getAllRecordings st), st)
  | .updateRecordingStatus id s, st =>
    let p := Mem.updateRecordingStatus id s st
    (.maybeRecording p.1, p.2)
  | .updateRecordingTranscribed id b, st =>
    let p := Mem.updateRecordingTranscribed id b st
    (.maybeRecording p.1, p.2)
  | .updateRecordingNotesGenerated id b, st =>
    let p := Mem.updateRecordingNotesGenerated id b st
    (.maybeRecording p.1, p.2)
  | .updateRecordingTitle id t, st =>
    let p := Mem.updateRecordingTitle id t st
    (.maybeRecording p.1, p.2)
  | .deleteRecording id, st =>
    let p := Mem.deleteRecording id st
    (.deleted p.1, p.2)
  | .createTranscript now ins, st =>
    let p := Mem.createTranscript now ins st
    (.newTranscript p.1, p.2)
  | .getTranscriptByRecordingId r, st =>
    (.maybeTranscript (Mem.getTranscriptByRecordingId r st), st)
  | .createNote now ins, st =>
    let p := Mem.createNote now ins st
    (.newNote p.1, p.2)
  | .getNoteByRecordingId r, st =>
    (.maybeNote (Mem.getNoteByRecordingId r st), st)
  | .updateNote id c, st =>
    let p := Mem.updateNote id c st
    (.maybeNote p.1, p.2)

/-- Run a sequence of operations on the `server/storage.ts` `MemStorage`,
collecting the returned values. -/
def Mem.run : List Op → St → List Ret × St
  | [], st => ([], st)
  | op :: ops, st =>
    let p := Mem.step op st
    let q := Mem.run ops p.2
    (p.1 :: q.1, q.2)

/-- Run one operation on the hybrid module's `MemStorage`. -/
def HMem.step : Op → St → Ret × St
  | .getUser id, st => (.maybeUser (HMem.getUser id st), st)
  | .getUserByUsername u, st => (.maybeUser (HMem.getUserByUsername u st), st)
  | .getUserByEmail e, st => (.maybeUser (HMem.getUserByEmail e st), st)
  | .createUser now ins, st =>
    let p := HMem.createUser now ins st
    (.newUser p.1, p.2)
  | .createRecording now ins, st =>
    let p := HMem.createRecording now ins st
    (.newRecording p.1, p.2)
  | .getRecording id, st => (.maybeRecording (HMem.getRecording id st), st)
  | .getAllRecordings, st => (.allRecordings (HMem.getAllRecordings st), st)
  | .updateRecordingStatus id s, st =>
    let p := HMem.updateRecordingStatus id s st
    (.maybeRecording p.1, p.2)
  | .updateRecordingTranscribed id b, st =>
    let p := HMem.updateRecordingTranscribed id b st
    (.maybeRecording p.1, p.2)
  | .updateRecordingNotesGenerated id b, st =>
    let p := HMem.updateRecordingNotesGenerated id b st
    (.maybeRecording p.1, p.2)
  | .updateRecordingTitle id t, st =>
    let p := HMem.updateRecordingTitle id t st
    (.maybeRecording p.1, p.2)
  | .deleteRecording id, st =>
    let p := HMem.deleteRecording id st
    (.deleted p.1, p.2)
  | .createTranscript now ins, st =>
    let p := HMem.createTranscript now ins st
    (.newTranscript p.1, p.2)
  | .getTranscriptByRecordingId r, st =>
    (.maybeTranscript (HMem.getTranscriptByRecordingId r st), st)
  | .createNote now ins, st =>
    let p := HMem.createNote now ins st
    (.newNote p.1, p.2)
  | .getNoteByRecordingId r, st =>
    (.maybeNote (HMem.getNoteByRecordingId r st), st)
  | .updateNote id c, st =>
    let p := HMem.updateNote id c st
    (.maybeNote p.1, p.2)

/-- Run a sequence of operations on the hybrid module's `MemStorage`. -/
def HMem.run : List Op → St → List Ret × St
  | [], st => ([], st)
  | op :: ops, st =>
    let p := HMem.step op st
    let q := HMem.run ops p.2
    (p.1 :: q.1, q.2)

/-- An operation whose two `MemStorage` variants agree syntactically: every
operation except a `createUser` whose `InsertUser` carries a truthy
(present, nonzero) `id`. -/
def goodOp : Op → Bool
  | .createUser _ ins =>
    match ins.id with
    | none => true
    | some i => i == 0
  | _ => true

/-! ## Derived observers used in the statements below -/

/-- The four auto-increment counters of a state. -/
def countersOf (st : St) : Nat × Nat × Nat × Nat :=
  (st.userCurrentId, st.recordingCurrentId,
   st.transcriptCurrentId, st.noteCurrentId)

/-- The id of the user created by a returned value, when it is one. -/
def retUserId : Ret → Option Nat
  | .newUser u => some u.id
  | _ => none

/-- The id of the recording created by a returned value, when it is one. -/
def retRecordingId : Ret → Option Nat
  | .newRecording r => some r.id
  | _ => none

/-- The id of the transcript created by a returned value, when it is one. -/
def retTranscriptId : Ret → Option Nat
  | .newTranscript t => some t.id
  | _ => none

/-- The id of the note created by a returned value, when it is one. -/
def retNoteId : Ret → Option Nat
  | .newNote n => some n.id
  | _ => none

/-- The ids assigned by the `createUser` calls of a trace, in order. -/
def createdUserIds (trace : List Ret) : List Nat :=
  trace.filterMap retUserId

/-- The ids assigned by the `createRecording` calls of a trace, in order. -/
def createdRecordingIds (trace : List Ret) : List Nat :=
  trace.filterMap retRecordingId

/-- The ids assigned by the `createTranscript` calls of a trace, in
order. -/
def createdTranscriptIds (trace : List Ret) : List Nat :=
  trace.filterMap retTranscriptId

/-- The ids assigned by the `createNote` calls of a trace, in order. -/
def createdNoteIds (trace : List Ret) : List Nat :=
  trace.filterMap retNoteId

/-- Newest-first order on recordings: the left element's `createdAt` is at
least the right element's. -/
def descBy (a b : Recording) : Prop := b.createdAt ≤ a.createdAt

/-- The C4 failing input: the hybrid store's local state after two
`createRecording` calls at dates `0` and `1`. -/
def c4State : St :=
  (HMem.createRecording 1
    { title := "t2", filename := "f2", fileSize := 2, fileFormat := "MP3"
      status := "pending" }
    (HMem.createRecording 0
      { title := "t1", filename := "f1", fileSize := 1, fileFormat := "MP3"
        status := "pending" } St.init).2).2

/-! ## Lemmas about `JsMap` operations -/

section JsMapLemmas

variable {α : Type}

/-- `Map.set` then `Map.get` at the same key yields the new value. -/
theorem jsGet_jsSet_self (m : JsMap α) (k : Nat) (v : α) :
    jsGet (jsSet m k v) k = some v := by
  induction m with
  | nil => simp [jsSet, jsGet, List.find?]
  | cons e m ih =>
    by_cases he : e.1 == k
    · simp [jsSet, he, jsGet, List.find?]
    · simpa [jsSet, he, jsGet, List.find?_cons_of_neg, he] using ih

/-- `Map.set` does not change `Map.get` at a different key. -/
theorem jsGet_jsSet_ne (m : JsMap α) {j k : Nat} (v : α) (h : j ≠ k) :
    jsGet (jsSet m k v) j = jsGet m j := by
  have hkj : (k == j) = false := by rw [beq_eq_false_iff_ne]; exact Ne.symm h
  induction m with
  | nil => simp [jsSet, jsGet, List.find?, hkj]
  | cons e m ih =>
    by_cases he : e.1 == k
    · have he' : e.1 = k := by simpa using he
      simp [jsSet, he, jsGet, List.find?, hkj, he']
    · by_cases hej : e.1 == j
      · simp [jsSet, he, jsGet, List.find?, hej]
      · simpa [jsSet, he, jsGet, List.find?, hej] using ih

/-- If no stored value satisfies `p` and the new value does, then after
`Map.set` the linear scan over the values finds exactly the new value. -/
theorem find?_values_jsSet {m : JsMap α} {p : α → Bool} {v : α} (k : Nat)
    (h : (jsValues m).find? p = none) (hv : p v = true) :
    (jsValues (jsSet m k v)).find? p = some v := by
  induction m with
  | nil => simp [jsSet, jsValues, List.find?, hv]
  | cons e m ih =>
    rw [jsValues, List.map_cons, List.find?] at h
    cases hpe : p e.2 with
    | true => rw [hpe] at h; exact absurd h (by simp)
    | false =>
      rw [hpe] at h
      by_cases he : e.1 == k
      · simp [jsSet, he, jsValues, List.find?, hv]
      · simpa [jsSet, he, jsValues, List.find?, hpe] using ih h

/-- After `Map.delete k`, no entry has key `k`. -/
theorem jsGet_jsDelete_self (m : JsMap α) (k : Nat) :
    jsGet (jsDelete m k) k = none := by
  unfold jsGet jsDelete
  rw [Option.map_eq_none', List.find?_eq_none]
  intro p hp
  have := (List.mem_filter.mp hp).2
  simpa using this

/-- `Map.delete` does not change `Map.get` at a different key. -/
theorem jsGet_jsDelete_ne (m : JsMap α) {j k : Nat} (h : j ≠ k) :
    jsGet (jsDelete m k) j = jsGet m j := by
  induction m with
  | nil => rfl
  | cons e m ih =>
    by_cases hej : e.1 == j
    · have he' : e.1 = j := by simpa using hej
      have : (e.1 != k) = true := by simp [he', h]
      simp [jsDelete, List.filter_cons, this, jsGet, List.find?, hej]
    · by_cases hek : (e.1 != k)
      · simpa [jsDelete, List.filter_cons, hek, jsGet, List.find?, hej] using ih
      · simpa [jsDelete, List.filter_cons, hek, jsGet, List.find?, hej] using ih

end JsMapLemmas

/-! ## The two `MemStorage` variants agree except on `createUser` -/

/-- On any operation other than a `createUser` carrying a truthy `id`, the
two `MemStorage` variants take the same step. -/
theorem step_eq (op : Op) (st : St) (h : goodOp op = true) :
    Mem.step op st = HMem.step op st := by
  cases op
  case createUser now ins =>
    cases hid : ins.id with
    | none =>
      simp [Mem.step, HMem.step, Mem.createUser, HMem.createUser, hid]
    | some i =>
      have hi : (i == 0) = true := by simpa [goodOp, hid] using h
      simp [Mem.step, HMem.step, Mem.createUser, HMem.createUser, hid, hi]
  all_goals rfl

/-- On any sequence of operations free of truthy-id `createUser` calls,
the two `MemStorage` variants produce the same trace and final state. -/
theorem run_eq (ops : List Op) (st : St)
    (h : ∀ op ∈ ops, goodOp op = true) :
    Mem.run ops st = HMem.run ops st := by
  induction ops generalizing st with
  | nil => rfl
  | cons op ops ih =>
    have h1 : goodOp op = true := h op (by simp)
    have h2 : ∀ o ∈ ops, goodOp o = true := fun o ho => h o (by simp [ho])
    simp only [Mem.run, HMem.run, step_eq op st h1, ih _ h2]

/-! ## Counter behaviour of the `server/storage.ts` methods -/

theorem countersOf_updateRecordingStatus (id : Nat) (s : String) (st : St) :
    countersOf (Mem.updateRecordingStatus id s st).2 = countersOf st := by
  unfold Mem.updateRecordingStatus
  cases h : jsGet st.recordings id <;> rfl

theorem countersOf_updateRecordingTranscribed (id : Nat) (b : Bool)
    (st : St) :
    countersOf (Mem.updateRecordingTranscribed id b st).2 = countersOf st := by
  unfold Mem.updateRecordingTranscribed
  cases h : jsGet st.recordings id <;> rfl

theorem countersOf_updateRecordingNotesGenerated (id : Nat) (b : Bool)
    (st : St) :
    countersOf (Mem.updateRecordingNotesGenerated id b st).2 =
      countersOf st := by
  unfold Mem.updateRecordingNotesGenerated
  cases h : jsGet st.recordings id <;> rfl

theorem countersOf_updateRecordingTitle (id : Nat) (t : String) (st : St) :
    countersOf (Mem.updateRecordingTitle id t st).2 = countersOf st := by
  unfold Mem.updateRecordingTitle
  cases h : jsGet st.recordings id <;> rfl

theorem countersOf_updateNote (id : Nat) (c : String) (st : St) :
    countersOf (Mem.updateNote id c st).2 = countersOf st := by
  unfold Mem.updateNote
  cases h : jsGet st.notes id <;> rfl

theorem countersOf_deleteRecording (id : Nat) (st : St) :
    countersOf (Mem.deleteRecording id st).2 = countersOf st := by
  have h1 : ∀ s, countersOf (Mem.transcriptCascade id s) = countersOf s := by
    intro s
    unfold Mem.transcriptCascade
    split <;> rfl
  have h2 : ∀ s, countersOf (Mem.noteCascade id s) = countersOf s := by
    intro s
    unfold Mem.noteCascade
    split <;> rfl
  unfold Mem.deleteRecording
  split
  · rfl
  · rw [show countersOf ({ Mem.noteCascade id (Mem.transcriptCascade id st) with
        recordings := jsDelete (Mem.noteCascade id (Mem.transcriptCascade id st)).recordings id } : St) =
      countersOf (Mem.noteCascade id (Mem.transcriptCascade id st)) from rfl, h2, h1]

/-! ## Ids assigned by the create methods along a run -/

theorem step_userId (op : Op) (st : St)
    (h : ∀ now ins, op ≠ Op.createUser now ins) :
    retUserId (Mem.step op st).1 = none ∧
      (Mem.step op st).2.userCurrentId = st.userCurrentId := by
  cases op <;> first
    | exact absurd rfl (h _ _)
    | exact ⟨rfl, rfl⟩
    | exact ⟨rfl, congrArg (fun t => t.1)
        (countersOf_updateRecordingStatus _ _ st)⟩
    | exact ⟨rfl, congrArg (fun t => t.1)
        (countersOf_updateRecordingTranscribed _ _ st)⟩
    | exact ⟨rfl, congrArg (fun t => t.1)
        (countersOf_updateRecordingNotesGenerated _ _ st)⟩
    | exact ⟨rfl, congrArg (fun t => t.1)
        (countersOf_updateRecordingTitle _ _ st)⟩
    | exact ⟨rfl, congrArg (fun t => t.1)
        (countersOf_deleteRecording _ st)⟩
    | exact ⟨rfl, congrArg (fun t => t.1)
        (countersOf_updateNote _ _ st)⟩

theorem step_recordingId (op : Op) (st : St)
    (h : ∀ now ins, op ≠ Op.createRecording now ins) :
    retRecordingId (Mem.step op st).1 = none ∧
      (Mem.step op st).2.recordingCurrentId = st.recordingCurrentId := by
  cases op <;> first
    | exact absurd rfl (h _ _)
    | exact ⟨rfl, rfl⟩
    | exact ⟨rfl, congrArg (fun t => t.2.1)
        (countersOf_updateRecordingStatus _ _ st)⟩
    | exact ⟨rfl, congrArg (fun t => t.2.1)
        (countersOf_updateRecordingTranscribed _ _ st)⟩
    | exact ⟨rfl, congrArg (fun t => t.2.1)
        (countersOf_updateRecordingNotesGenerated _ _ st)⟩
    | exact ⟨rfl, congrArg (fun t => t.2.1)
        (countersOf_updateRecordingTitle _ _ st)⟩
    | exact ⟨rfl, congrArg (fun t => t.2.1)
        (countersOf_deleteRecording _ st)⟩
    | exact ⟨rfl, congrArg (fun t => t.2.1)
        (countersOf_updateNote _ _ st)⟩

theorem step_transcriptId (op : Op) (st : St)
    (h : ∀ now ins, op ≠ Op.createTranscript now ins) :
    retTranscriptId (Mem.step op st).1 = none ∧
      (Mem.step op st).2.transcriptCurrentId = st.transcriptCurrentId := by
  cases op <;> first
    | exact absurd rfl (h _ _)
    | exact ⟨rfl, rfl⟩
    | exact ⟨rfl, congrArg (fun t => t.2.2.1)
        (countersOf_updateRecordingStatus _ _ st)⟩
    | exact ⟨rfl, congrArg (fun t => t.2.2.1)
        (countersOf_updateRecordingTranscribed _ _ st)⟩
    | exact ⟨rfl, congrArg (fun t => t.2.2.1)
        (countersOf_updateRecordingNotesGenerated _ _ st)⟩
    | exact ⟨rfl, congrArg (fun t => t.2.2.1)
        (countersOf_updateRecordingTitle _ _ st)⟩
    | exact ⟨rfl, congrArg (fun t => t.2.2.1)
        (countersOf_deleteRecording _ st)⟩
    | exact ⟨rfl, congrArg (fun t => t.2.2.1)
        (countersOf_updateNote _ _ st)⟩

theorem step_noteId (op : Op) (st : St)
    (h : ∀ now ins, op ≠ Op.createNote now ins) :
    retNoteId (Mem.step op st).1 = none ∧
      (Mem.step op st).2.noteCurrentId = st.noteCurrentId := by
  cases op <;> first
    | exact absurd rfl (h _ _)
    | exact ⟨rfl, rfl⟩
    | exact ⟨rfl, congrArg (fun t => t.2.2.2)
        (countersOf_updateRecordingStatus _ _ st)⟩
    | exact ⟨rfl, congrArg (fun t => t.2.2.2)
        (countersOf_updateRecordingTranscribed _ _ st)⟩
    | exact ⟨rfl, congrArg (fun t => t.2.2.2)
        (countersOf_updateRecordingNotesGenerated _ _ st)⟩
    | exact ⟨rfl, congrArg (fun t => t.2.2.2)
        (countersOf_updateRecordingTitle _ _ st)⟩
    | exact ⟨rfl, congrArg (fun t => t.2.2.2)
        (countersOf_deleteRecording _ st)⟩
    | exact ⟨rfl, congrArg (fun t => t.2.2.2)
        (countersOf_updateNote _ _ st)⟩

/-! ## Along any run, each create method hands out strictly increasing
ids drawn from its counter -/

theorem createdUserIds_run (ops : List Op) (st : St) :
    List.Pairwise (· < ·) (createdUserIds (Mem.run ops st).1) ∧
    ∀ i ∈ createdUserIds (Mem.run ops st).1, st.userCurrentId ≤ i := by
  induction ops generalizing st with
  | nil => simp [Mem.run, createdUserIds]
  | cons op ops ih =>
    have hrun : (Mem.run (op :: ops) st).1 =
        (Mem.step op st).1 :: (Mem.run ops (Mem.step op st).2).1 := rfl
    by_cases hc : ∃ now ins, op = Op.createUser now ins
    · obtain ⟨now, ins, rfl⟩ := hc
      have hid : retUserId (Mem.step (Op.createUser now ins) st).1 =
          some st.userCurrentId := rfl
      obtain ⟨hp, hb⟩ := ih ((Mem.step (Op.createUser now ins) st).2)
      have hb' : ∀ j ∈ createdUserIds
          (Mem.run ops ((Mem.step (Op.createUser now ins) st).2)).1,
          st.userCurrentId + 1 ≤ j := hb
      unfold createdUserIds at *
      rw [hrun, List.filterMap_cons_some hid]
      refine ⟨List.pairwise_cons.mpr
        ⟨fun j hj => Nat.lt_of_succ_le (hb' j hj), hp⟩, ?_⟩
      intro i hi
      rcases List.mem_cons.mp hi with rfl | hi'
      · exact Nat.le_refl _
      · exact Nat.le_trans (Nat.le_succ _) (hb' i hi')
    · have hne : ∀ now ins, op ≠ Op.createUser now ins :=
        fun now ins he => hc ⟨now, ins, he⟩
      obtain ⟨h1, h2⟩ := step_userId op st hne
      obtain ⟨hp, hb⟩ := ih ((Mem.step op st).2)
      unfold createdUserIds at *
      rw [hrun, List.filterMap_cons_none h1]
      refine ⟨hp, fun i hi => ?_⟩
      have := hb i hi
      rwa [h2] at this

theorem createdRecordingIds_run (ops : List Op) (st : St) :
    List.Pairwise (· < ·) (createdRecordingIds (Mem.run ops st).1) ∧
    ∀ i ∈ createdRecordingIds (Mem.run ops st).1, st.recordingCurrentId ≤ i := by
  induction ops generalizing st with
  | nil => simp [Mem.run, createdRecordingIds]
  | cons op ops ih =>
    have hrun : (Mem.run (op :: ops) st).1 =
        (Mem.step op st).1 :: (Mem.run ops (Mem.step op st).2).1 := rfl
    by_cases hc : ∃ now ins, op = Op.createRecording now ins
    · obtain ⟨now, ins, rfl⟩ := hc
      have hid : retRecordingId (Mem.step (Op.createRecording now ins) st).1 =
          some st.recordingCurrentId := rfl
      obtain ⟨hp, hb⟩ := ih ((Mem.step (Op.createRecording now ins) st).2)
      have hb' : ∀ j ∈ createdRecordingIds
          (Mem.run ops ((Mem.step (Op.createRecording now ins) st).2)).1,
          st.recordingCurrentId + 1 ≤ j := hb
      unfold createdRecordingIds at *
      rw [hrun, List.filterMap_cons_some hid]
      refine ⟨List.pairwise_cons.mpr
        ⟨fun j hj => Nat.lt_of_succ_le (hb' j hj), hp⟩, ?_⟩
      intro i hi
      rcases List.mem_cons.mp hi with rfl | hi'
      · exact Nat.le_refl _
      · exact Nat.le_trans (Nat.le_succ _) (hb' i hi')
    · have hne : ∀ now ins, op ≠ Op.createRecording now ins :=
        fun now ins he => hc ⟨now, ins, he⟩
      obtain ⟨h1, h2⟩ := step_recordingId op st hne
      obtain ⟨hp, hb⟩ := ih ((Mem.step op st).2)
      unfold createdRecordingIds at *
      rw [hrun, List.filterMap_cons_none h1]
      refine ⟨hp, fun i hi => ?_⟩
      have := hb i hi
      rwa [h2] at this

theorem createdTranscriptIds_run (ops : List Op) (st : St) :
    List.Pairwise (· < ·) (createdTranscriptIds (Mem.run ops st).1) ∧
    ∀ i ∈ createdTranscriptIds (Mem.run ops st).1, st.transcriptCurrentId ≤ i := by
  induction ops generalizing st with
  | nil => simp [Mem.run, createdTranscriptIds]
  | cons op ops ih =>
    have hrun : (Mem.run (op :: ops) st).1 =
        (Mem.step op st).1 :: (Mem.run ops (Mem.step op st).2).1 := rfl
    by_cases hc : ∃ now ins, op = Op.createTranscript now ins
    · obtain ⟨now, ins, rfl⟩ := hc
      have hid : retTranscriptId (Mem.step (Op.createTranscript now ins) st).1 =
          some st.transcriptCurrentId := rfl
      obtain ⟨hp, hb⟩ := ih ((Mem.step (Op.createTranscript now ins) st).2)
      have hb' : ∀ j ∈ createdTranscriptIds
          (Mem.run ops ((Mem.step (Op.createTranscript now ins) st).2)).1,
          st.transcriptCurrentId + 1 ≤ j := hb
      unfold createdTranscriptIds at *
      rw [hrun, List.filterMap_cons_some hid]
      refine ⟨List.pairwise_cons.mpr
        ⟨fun j hj => Nat.lt_of_succ_le (hb' j hj), hp⟩, ?_⟩
      intro i hi
      rcases List.mem_cons.mp hi with rfl | hi'
      · exact Nat.le_refl _
      · exact Nat.le_trans (Nat.le_succ _) (hb' i hi')
    · have hne : ∀ now ins, op ≠ Op.createTranscript now ins :=
        fun now ins he => hc ⟨now, ins, he⟩
      obtain ⟨h1, h2⟩ := step_transcriptId op st hne
      obtain ⟨hp, hb⟩ := ih ((Mem.step op st).2)
      unfold createdTranscriptIds at *
      rw [hrun, List.filterMap_cons_none h1]
      refine ⟨hp, fun i hi => ?_⟩
      have := hb i hi
      rwa [h2] at this

theorem createdNoteIds_run (ops : List Op) (st : St) :
    List.Pairwise (· < ·) (createdNoteIds (Mem.run ops st).1) ∧
    ∀ i ∈ createdNoteIds (Mem.run ops st).1, st.noteCurrentId ≤ i := by
  induction ops generalizing st with
  | nil => simp [Mem.run, createdNoteIds]
  | cons op ops ih =>
    have hrun : (Mem.run (op :: ops) st).1 =
        (Mem.step op st).1 :: (Mem.run ops (Mem.step op st).2).1 := rfl
    by_cases hc : ∃ now ins, op = Op.createNote now ins
    · obtain ⟨now, ins, rfl⟩ := hc
      have hid : retNoteId (Mem.step (Op.createNote now ins) st).1 =
          some st.noteCurrentId := rfl
      obtain ⟨hp, hb⟩ := ih ((Mem.step (Op.createNote now ins) st).2)
      have hb' : ∀ j ∈ createdNoteIds
          (Mem.run ops ((Mem.step (Op.createNote now ins) st).2)).1,
          st.noteCurrentId + 1 ≤ j := hb
      unfold createdNoteIds at *
      rw [hrun, List.filterMap_cons_some hid]
      refine ⟨List.pairwise_cons.mpr
        ⟨fun j hj => Nat.lt_of_succ_le (hb' j hj), hp⟩, ?_⟩
      intro i hi
      rcases List.mem_cons.mp hi with rfl | hi'
      · exact Nat.le_refl _
      · exact Nat.le_trans (Nat.le_succ _) (hb' i hi')
    · have hne : ∀ now ins, op ≠ Op.createNote now ins :=
        fun now ins he => hc ⟨now, ins, he⟩
      obtain ⟨h1, h2⟩ := step_noteId op st hne
      obtain ⟨hp, hb⟩ := ih ((Mem.step op st).2)
      unfold createdNoteIds at *
      rw [hrun, List.filterMap_cons_none h1]
      refine ⟨hp, fun i hi => ?_⟩
      have := hb i hi
      rwa [h2] at this

/-! ## The sort in `getAllRecordings` -/

theorem insertDesc_perm (x : Recording) (l : List Recording) :
    List.Perm (Mem.insertDesc x l) (x :: l) := by
  induction l with
  | nil => exact List.Perm.refl _
  | cons y ys ih =>
    unfold Mem.insertDesc
    by_cases h : y.createdAt < x.createdAt
    · simp only [h, if_pos]
      exact List.Perm.refl _
    · simp only [h, if_neg, ite_false]
      exact List.Perm.trans (ih.cons y) (List.Perm.swap x y ys)

theorem insertDesc_pairwise (x : Recording) (l : List Recording)
    (h : List.Pairwise descBy l) :
    List.Pairwise descBy (Mem.insertDesc x l) := by
  induction l with
  | nil => simp [Mem.insertDesc]
  | cons y ys ih =>
    rw [List.pairwise_cons] at h
    unfold Mem.insertDesc
    by_cases hlt : y.createdAt < x.createdAt
    · simp only [hlt, if_pos]
      refine List.pairwise_cons.mpr ⟨?_, List.pairwise_cons.mpr h⟩
      intro z hz
      rcases List.mem_cons.mp hz with rfl | hz'
      · exact Nat.le_of_lt hlt
      · exact Nat.le_trans (h.1 z hz') (Nat.le_of_lt hlt)
    · simp only [hlt, if_neg, ite_false]
      refine List.pairwise_cons.mpr ⟨?_, ih h.2⟩
      intro z hz
      have hz' := (insertDesc_perm x ys).mem_iff.mp hz
      rcases List.mem_cons.mp hz' with rfl | hz''
      · exact Nat.le_of_not_lt hlt
      · exact h.1 z hz''

theorem sortDesc_aux_perm (l acc : List Recording) :
    List.Perm (List.foldl (fun a x => Mem.insertDesc x a) acc l) (acc ++ l) := by
  induction l generalizing acc with
  | nil => simp
  | cons x l ih =>
    rw [List.foldl_cons]
    refine List.Perm.trans (ih (Mem.insertDesc x acc)) ?_
    refine List.Perm.trans ((insertDesc_perm x acc).append_right l) ?_
    exact List.perm_middle.symm

theorem sortDesc_aux_pairwise (l acc : List Recording)
    (h : List.Pairwise descBy acc) :
    List.Pairwise descBy (List.foldl (fun a x => Mem.insertDesc x a) acc l) := by
  induction l generalizing acc with
  | nil => exact h
  | cons x l ih => exact ih _ (insertDesc_pairwise x acc h)

/-- The stable sort of `getAllRecordings` returns a permutation of its
input. -/
theorem sortDesc_perm (l : List Recording) :
    List.Perm (Mem.sortDesc l) l := by
  simpa using sortDesc_aux_perm l []

/-- The stable sort of `getAllRecordings` returns a newest-first sorted
list. -/
theorem sortDesc_pairwise (l : List Recording) :
    List.Pairwise descBy (Mem.sortDesc l) :=
  sortDesc_aux_pairwise l [] (List.Pairwise.nil)

/-! ## The delete cascades -/

theorem jsHasKey_of_jsGet_some {α : Type} {m : JsMap α} {k : Nat} {v : α}
    (h : jsGet m k = some v) : jsHasKey m k = true := by
  unfold jsGet at h
  unfold jsHasKey
  cases hf : m.find? (fun p => p.1 == k) with
  | none => rw [hf] at h; simp at h
  | some e => simp

theorem transcriptCascade_recordings (id : Nat) (st : St) :
    (Mem.transcriptCascade id st).recordings = st.recordings := by
  unfold Mem.transcriptCascade
  split <;> rfl

theorem transcriptCascade_notes (id : Nat) (st : St) :
    (Mem.transcriptCascade id st).notes = st.notes := by
  unfold Mem.transcriptCascade
  split <;> rfl

theorem noteCascade_recordings (id : Nat) (st : St) :
    (Mem.noteCascade id st).recordings = st.recordings := by
  unfold Mem.noteCascade
  split <;> rfl

theorem noteCascade_transcripts (id : Nat) (st : St) :
    (Mem.noteCascade id st).transcripts = st.transcripts := by
  unfold Mem.noteCascade
  split <;> rfl

theorem cascades_recordings (id : Nat) (st : St) :
    (Mem.noteCascade id (Mem.transcriptCascade id st)).recordings =
      st.recordings := by
  rw [noteCascade_recordings, transcriptCascade_recordings]

/-- When transcript-map keys match transcript ids and at most one key
holds a transcript referencing `id`, the transcript cascade leaves no
transcript with that `recordingId`. -/
theorem transcriptCascade_clears (id : Nat) (st : St)
    (hkeys : ∀ e ∈ st.transcripts, e.1 = e.2.id)
    (huniq : ∀ e1 ∈ st.transcripts, ∀ e2 ∈ st.transcripts,
      e1.2.recordingId = id → e2.2.recordingId = id → e1.1 = e2.1) :
    ∀ t ∈ jsValues (Mem.transcriptCascade id st).transcripts,
      t.recordingId ≠ id := by
  unfold Mem.transcriptCascade
  cases hf : (jsValues st.transcripts).find? (fun t => t.recordingId == id) with
  | none =>
    intro t ht hc
    have ht' : t ∈ jsValues st.transcripts := ht
    have := List.find?_eq_none.mp hf t ht'
    simp [hc] at this
  | some t0 =>
    intro t ht hc
    have ht' : t ∈ jsValues (jsDelete st.transcripts t0.id) := ht
    obtain ⟨e, he, het⟩ := List.mem_map.mp ht'
    have hef := List.mem_filter.mp he
    have ht0mem : t0 ∈ jsValues st.transcripts := List.mem_of_find?_eq_some hf
    obtain ⟨e0, he0, he0t⟩ := List.mem_map.mp ht0mem
    have hpred := List.find?_some hf
    have h1 : e.1 = e0.1 :=
      huniq e hef.1 e0 he0 (by rw [het]; exact hc)
        (by rw [he0t]; simpa using hpred)
    have h2 : e0.1 = t0.id := by rw [hkeys e0 he0, he0t]
    have h3 : (e.1 != t0.id) = true := hef.2
    rw [h1, h2] at h3
    simp at h3

/-- The analogous statement for the note cascade. -/
theorem noteCascade_clears (id : Nat) (st : St)
    (hkeys : ∀ e ∈ st.notes, e.1 = e.2.id)
    (huniq : ∀ e1 ∈ st.notes, ∀ e2 ∈ st.notes,
      e1.2.recordingId = id → e2.2.recordingId = id → e1.1 = e2.1) :
    ∀ n ∈ jsValues (Mem.noteCascade id st).notes, n.recordingId ≠ id := by
  unfold Mem.noteCascade
  cases hf : (jsValues st.notes).find? (fun n => n.recordingId == id) with
  | none =>
    intro n hn hc
    have hn' : n ∈ jsValues st.notes := hn
    have := List.find?_eq_none.mp hf n hn'
    simp [hc] at this
  | some n0 =>
    intro n hn hc
    have hn' : n ∈ jsValues (jsDelete st.notes n0.id) := hn
    obtain ⟨e, he, hen⟩ := List.mem_map.mp hn'
    have hef := List.mem_filter.mp he
    have hn0mem : n0 ∈ jsValues st.notes := List.mem_of_find?_eq_some hf
    obtain ⟨e0, he0, he0n⟩ := List.mem_map.mp hn0mem
    have hpred := List.find?_some hf
    have h1 : e.1 = e0.1 :=
      huniq e hef.1 e0 he0 (by rw [hen]; exact hc)
        (by rw [he0n]; simpa using hpred)
    have h2 : e0.1 = n0.id := by rw [hkeys e0 he0, he0n]
    have h3 : (e.1 != n0.id) = true := hef.2
    rw [h1, h2] at h3
    simp at h3

/-! ## The claims -/

/-- C1 (counterexample): the claim fails as stated — with a recording `1`
and two transcripts both carrying `recordingId = 1`, `deleteRecording(1)`
returns `true` but deletes only the first matching transcript, so a stored
transcript with `recordingId = 1` remains. -/
theorem C1_counterexample :
    let st := (Mem.createTranscript 0 ⟨1, "b"⟩
      (Mem.createTranscript 0 ⟨1, "a"⟩
        (Mem.createRecording 0
          { title := "t", filename := "f", fileSize := 1, fileFormat := "MP3"
            status := "pending" } St.init).2).2).2
    (Mem.deleteRecording 1 st).1 = true ∧
    ((jsValues (Mem.deleteRecording 1 st).2.transcripts).any
      (fun t => t.recordingId == 1)) = true := by
  exact ⟨rfl, rfl⟩

/-- C1 (amended): in any storage state whose transcript and note map keys
match the record ids and in which at most one transcript and at most one
note carry `recordingId = id`, if a recording with key `id` exists then
`deleteRecording(id)` returns `true`, removes the recording, and leaves no
stored transcript and no stored note with `recordingId = id`. -/
theorem C1_deleteRecording_cascades (st : St) (id : Nat) (r : Recording)
    (hrec : jsGet st.recordings id = some r)
    (hkeysT : ∀ e ∈ st.transcripts, e.1 = e.2.id)
    (hkeysN : ∀ e ∈ st.notes, e.1 = e.2.id)
    (huniqT : ∀ e1 ∈ st.transcripts, ∀ e2 ∈ st.transcripts,
      e1.2.recordingId = id → e2.2.recordingId = id → e1.1 = e2.1)
    (huniqN : ∀ e1 ∈ st.notes, ∀ e2 ∈ st.notes,
      e1.2.recordingId = id → e2.2.recordingId = id → e1.1 = e2.1) :
    (Mem.deleteRecording id st).1 = true ∧
    jsGet (Mem.deleteRecording id st).2.recordings id = none ∧
    (∀ t ∈ jsValues (Mem.deleteRecording id st).2.transcripts,
      t.recordingId ≠ id) ∧
    (∀ n ∈ jsValues (Mem.deleteRecording id st).2.notes,
      n.recordingId ≠ id) := by
  have hT := transcriptCascade_clears id st hkeysT huniqT
  have hstn := transcriptCascade_notes id st
  have hN := noteCascade_clears id (Mem.transcriptCascade id st)
    (by rw [hstn]; exact hkeysN) (by rw [hstn]; exact huniqN)
  unfold Mem.deleteRecording
  rw [hrec]
  refine ⟨?_, ?_, ?_, ?_⟩
  · show jsHasKey
      (Mem.noteCascade id (Mem.transcriptCascade id st)).recordings id = true
    rw [cascades_recordings]
    exact jsHasKey_of_jsGet_some hrec
  · show jsGet (jsDelete
      (Mem.noteCascade id (Mem.transcriptCascade id st)).recordings id) id = none
    exact jsGet_jsDelete_self _ _
  · show ∀ t ∈ jsValues
      (Mem.noteCascade id (Mem.transcriptCascade id st)).transcripts,
      t.recordingId ≠ id
    rw [noteCascade_transcripts]
    exact hT
  · exact hN

/-- C1 witness: a state with one recording, one transcript and one note
all referencing recording `1` satisfies the hypotheses, and the cascade
delete clears everything. -/
theorem C1_witness :
    (Mem.deleteRecording 1 ((Mem.createNote 0 ⟨1, "n"⟩
      (Mem.createTranscript 0 ⟨1, "a"⟩
        (Mem.createRecording 0
          { title := "t", filename := "f", fileSize := 1, fileFormat := "MP3"
            status := "pending" } St.init).2).2).2)).1 = true ∧
    jsGet (Mem.deleteRecording 1 ((Mem.createNote 0 ⟨1, "n"⟩
      (Mem.createTranscript 0 ⟨1, "a"⟩
        (Mem.createRecording 0
          { title := "t", filename := "f", fileSize := 1, fileFormat := "MP3"
            status := "pending" } St.init).2).2).2)).2.recordings 1 = none ∧
    (∀ t ∈ jsValues (Mem.deleteRecording 1 ((Mem.createNote 0 ⟨1, "n"⟩
      (Mem.createTranscript 0 ⟨1, "a"⟩
        (Mem.createRecording 0
          { title := "t", filename := "f", fileSize := 1, fileFormat := "MP3"
            status := "pending" } St.init).2).2).2)).2.transcripts,
      t.recordingId ≠ 1) ∧
    (∀ n ∈ jsValues (Mem.deleteRecording 1 ((Mem.createNote 0 ⟨1, "n"⟩
      (Mem.createTranscript 0 ⟨1, "a"⟩
        (Mem.createRecording 0
          { title := "t", filename := "f", fileSize := 1, fileFormat := "MP3"
            status := "pending" } St.init).2).2).2)).2.notes,
      n.recordingId ≠ 1) :=
  C1_deleteRecording_cascades _ 1
    { id := 1, title := "t", filename := "f", fileSize := 1
      fileFormat := "MP3", duration := none, status := "pending"
      transcribed := false, notesGenerated := false, createdAt := 0 }
    (by decide) (by decide) (by decide) (by decide) (by decide)

/-- C2: when Google Sheets is in use and its `createUser` rejects,
`HybridStorage.createUser` catches the error, creates the user in the
local in-memory store, persists the local state to the file, and returns
that user — the call itself succeeds. -/
theorem C2_createUser_fallback (now : Nat) (e : String) (ins : InsertUser)
    (hst : HSt) :
    Hybrid.createUser now true (Except.error e) ins hst =
      Except.ok ((HMem.createUser now ins hst.localSt).1,
        { localSt := (HMem.createUser now ins hst.localSt).2
          file := some (HMem.createUser now ins hst.localSt).2 }) ∧
    jsGet (HMem.createUser now ins hst.localSt).2.users
        (HMem.createUser now ins hst.localSt).1.id =
      some (HMem.createUser now ins hst.localSt).1 := by
  constructor
  · rfl
  · unfold HMem.createUser
    split
    · split
      · exact jsGet_jsSet_self _ _ _
      · exact jsGet_jsSet_self _ _ _
    · exact jsGet_jsSet_self _ _ _

/-- C3 (counterexample): `HybridStorage.getUserByEmail` contains no
`try`/`catch`; if the awaited primary lookup rejects, the rejection
propagates and the local result is not returned, even when a matching
local user exists. -/
theorem C3_counterexample :
    Hybrid.getUserByEmail true (Except.error "boom") "e"
        ((HMem.createUser 0 ⟨"n", "e", "p", none⟩ St.init).2) =
      Except.error "boom" ∧
    (HMem.getUserByEmail "e"
        ((HMem.createUser 0 ⟨"n", "e", "p", none⟩ St.init).2)).isSome = true ∧
    Hybrid.getUserByEmail true (Except.error "boom") "e"
        ((HMem.createUser 0 ⟨"n", "e", "p", none⟩ St.init).2) ≠
      Except.ok (HMem.getUserByEmail "e"
        ((HMem.createUser 0 ⟨"n", "e", "p", none⟩ St.init).2)) :=
  ⟨rfl, rfl, fun h => Except.noConfusion h⟩

/-- C3 (amended): `HybridStorage.getUserByEmail` tries the primary Google
Sheets backend first — a primary result is returned as is — and falls back
to the local store when the primary returns no user; in particular, since
the sheets service catches its own errors and returns `undefined`, an
internal primary failure yields the local result.  (A primary rejection
itself is not caught; see the counterexample.) -/
theorem C3_getUserByEmail_fallback (useGS : Bool) (st : St) (email : String)
    (init : Bool) (e : String) (u : User) :
    Hybrid.getUserByEmail useGS (Except.ok none) email st =
      Except.ok (HMem.getUserByEmail email st) ∧
    Hybrid.getUserByEmail useGS
        (Except.ok (Sheets.getUserByEmail init (Except.error e) email))
        email st =
      Except.ok (HMem.getUserByEmail email st) ∧
    Hybrid.getUserByEmail true (Except.ok (some u)) email st =
      Except.ok (some u) := by
  have hsheets : Sheets.getUserByEmail init (Except.error e) email = none := by
    unfold Sheets.getUserByEmail
    cases init <;> rfl
  refine ⟨?_, ?_, rfl⟩
  · unfold Hybrid.getUserByEmail
    cases useGS <;> rfl
  · rw [hsheets]
    unfold Hybrid.getUserByEmail
    cases useGS <;> rfl

/-- C4: saving then loading is lossy — `JSON.stringify` renders the
`createdAt` dates as ISO strings and `JSON.parse` does not revive them, so
on the reloaded state `getAllRecordings` (whose comparator calls
`createdAt.getTime()`) throws, while on the original state (two
recordings) it succeeds; `getRecording` returns a record whose `createdAt`
is a string rather than the original date.  Ids, all other fields and the
counters do survive the round trip. -/
theorem C4_roundtrip_loses_dates :
    Persist.lGetAllRecordings (Persist.roundtrip c4State) = none ∧
    (HMem.getAllRecordings c4State).length = 2 ∧
    Persist.lGetRecording 1 (Persist.roundtrip c4State) =
      some { id := 1, title := "t1", filename := "f1", fileSize := 1
             fileFormat := "MP3", duration := none, status := "pending"
             transcribed := false, notesGenerated := false
             createdAt := isoStr 0 } ∧
    HMem.getRecording 1 c4State =
      some { id := 1, title := "t1", filename := "f1", fileSize := 1
             fileFormat := "MP3", duration := none, status := "pending"
             transcribed := false, notesGenerated := false, createdAt := 0 } ∧
    (Persist.roundtrip c4State).recordingCurrentId =
      c4State.recordingCurrentId := by
  exact ⟨rfl, rfl, rfl, rfl, rfl⟩

/-- C5 (counterexample): the two `MemStorage` variants are not
interchangeable — a `createUser` whose `InsertUser` carries `id = 5`
returns a user with id `5` from the hybrid module's variant but id `1`
from the `server/storage.ts` variant. -/
theorem C5_counterexample :
    Mem.run [Op.createUser 0 ⟨"n", "e", "p", some 5⟩] St.init ≠
      HMem.run [Op.createUser 0 ⟨"n", "e", "p", some 5⟩] St.init := by
  decide

/-- C5 (amended): on every operation sequence in which no `createUser`
carries a truthy (present and nonzero) explicit `id`, the two `MemStorage`
variants, run from their initial empty states, return the same result at
every operation and end in the same state. -/
theorem C5_backends_interchangeable (ops : List Op)
    (h : ∀ op ∈ ops, goodOp op = true) :
    Mem.run ops St.init = HMem.run ops St.init :=
  run_eq ops St.init h

/-- C5 witness: a concrete sequence on which the two variants agree. -/
theorem C5_witness :
    Mem.run [Op.createUser 0 ⟨"n", "e", "p", none⟩,
             Op.createRecording 1
               { title := "t", filename := "f", fileSize := 1
                 fileFormat := "MP3", status := "pending" },
             Op.getAllRecordings] St.init =
      HMem.run [Op.createUser 0 ⟨"n", "e", "p", none⟩,
                Op.createRecording 1
                  { title := "t", filename := "f", fileSize := 1
                    fileFormat := "MP3", status := "pending" },
                Op.getAllRecordings] St.init :=
  C5_backends_interchangeable _ (by decide)

/-- C6 (counterexample): through the hybrid module's `createUser`, a
caller-supplied id `1` followed by a counter-assigned id yields the id
list `[1, 1]` — neither distinct nor strictly increasing. -/
theorem C6_counterexample :
    createdUserIds (HMem.run [Op.createUser 0 ⟨"a", "e1", "p", some 1⟩,
        Op.createUser 1 ⟨"b", "e2", "p", none⟩] St.init).1 = [1, 1] ∧
    ¬ List.Pairwise (· < ·)
      (createdUserIds (HMem.run [Op.createUser 0 ⟨"a", "e1", "p", some 1⟩,
        Op.createUser 1 ⟨"b", "e2", "p", none⟩] St.init).1) := by
  decide

/-- C6 (amended): for the `server/storage.ts` store, along every operation
sequence from the initial state the ids returned by each create method are
strictly increasing (hence pairwise distinct); the same holds for the
hybrid module's store provided no `createUser` carries a truthy explicit
`id`; and every created record carries the creation-time `createdAt`
stamp. -/
theorem C6_auto_increment_ids :
    (∀ ops : List Op,
      List.Pairwise (· < ·) (createdUserIds (Mem.run ops St.init).1) ∧
      List.Pairwise (· < ·) (createdRecordingIds (Mem.run ops St.init).1) ∧
      List.Pairwise (· < ·) (createdTranscriptIds (Mem.run ops St.init).1) ∧
      List.Pairwise (· < ·) (createdNoteIds (Mem.run ops St.init).1)) ∧
    (∀ ops : List Op, (∀ op ∈ ops, goodOp op = true) →
      List.Pairwise (· < ·) (createdUserIds (HMem.run ops St.init).1) ∧
      List.Pairwise (· < ·) (createdRecordingIds (HMem.run ops St.init).1) ∧
      List.Pairwise (· < ·) (createdTranscriptIds (HMem.run ops St.init).1) ∧
      List.Pairwise (· < ·) (createdNoteIds (HMem.run ops St.init).1)) ∧
    (∀ now ins st, (Mem.createUser now ins st).1.createdAt = now) ∧
    (∀ now ins st, (Mem.createRecording now ins st).1.createdAt = now) ∧
    (∀ now ins st, (Mem.createTranscript now ins st).1.createdAt = now) ∧
    (∀ now ins st, (Mem.createNote now ins st).1.createdAt = now) ∧
    (∀ now ins st, (HMem.createUser now ins st).1.createdAt = now) := by
  refine ⟨fun ops => ⟨(createdUserIds_run ops St.init).1,
      (createdRecordingIds_run ops St.init).1,
      (createdTranscriptIds_run ops St.init).1,
      (createdNoteIds_run ops St.init).1⟩,
    fun ops hg => ?_, fun now ins st => rfl, fun now ins st => rfl,
    fun now ins st => rfl, fun now ins st => rfl, fun now ins st => ?_⟩
  · rw [← run_eq ops St.init hg]
    exact ⟨(createdUserIds_run ops St.init).1,
      (createdRecordingIds_run ops St.init).1,
      (createdTranscriptIds_run ops St.init).1,
      (createdNoteIds_run ops St.init).1⟩
  · unfold HMem.createUser
    split
    · split <;> rfl
    · rfl

/-- C6 witness: on a concrete good sequence the hybrid store's created
user ids are strictly increasing. -/
theorem C6_witness :
    List.Pairwise (· < ·)
      (createdUserIds (HMem.run [Op.createUser 0 ⟨"a", "e1", "p", none⟩,
        Op.createUser 1 ⟨"b", "e2", "p", none⟩] St.init).1) :=
  (C6_auto_increment_ids.2.1
    [Op.createUser 0 ⟨"a", "e1", "p", none⟩,
     Op.createUser 1 ⟨"b", "e2", "p", none⟩] (by decide)).1

/-- C7: in a state with no stored transcript for `recordingId = r`,
creating a transcript for `r` and then looking it up by `recordingId`
returns exactly the created transcript, which carries the foreign key `r`
and the content `c`. -/
theorem C7_createTranscript_lookup (now r : Nat) (c : String) (st : St)
    (h : ∀ t ∈ jsValues st.transcripts, t.recordingId ≠ r) :
    Mem.getTranscriptByRecordingId r (Mem.createTranscript now ⟨r, c⟩ st).2 =
      some (Mem.createTranscript now ⟨r, c⟩ st).1 ∧
    (Mem.createTranscript now ⟨r, c⟩ st).1.recordingId = r ∧
    (Mem.createTranscript now ⟨r, c⟩ st).1.content = c := by
  refine ⟨?_, rfl, rfl⟩
  show (jsValues (jsSet st.transcripts st.transcriptCurrentId
      ⟨st.transcriptCurrentId, r, c, now⟩)).find?
      (fun t => t.recordingId == r) = some _
  apply find?_values_jsSet
  · rw [List.find?_eq_none]
    intro t ht
    simpa using h t ht
  · simp

/-- C7 witness: concrete instance from the empty state. -/
theorem C7_witness :
    Mem.getTranscriptByRecordingId 1
        (Mem.createTranscript 0 ⟨1, "hello"⟩ St.init).2 =
      some (Mem.createTranscript 0 ⟨1, "hello"⟩ St.init).1 ∧
    (Mem.createTranscript 0 ⟨1, "hello"⟩ St.init).1.recordingId = 1 ∧
    (Mem.createTranscript 0 ⟨1, "hello"⟩ St.init).1.content = "hello" :=
  C7_createTranscript_lookup 0 1 "hello" St.init (by decide)

/-- C8: when a recording with the given id exists, each single-field
update stores and returns the record with only the named field changed (to
the given value), leaves every other recording unchanged, and leaves the
users, transcripts, notes and all counters untouched (visible in the
`{ st with recordings := jsSet ... }` shape of the resulting state). -/
theorem C8_updates_frame (st : St) (id : Nat) (r : Recording)
    (s ti : String) (b1 b2 : Bool)
    (h : jsGet st.recordings id = some r) :
    (Mem.updateRecordingStatus id s st =
      (some { r with status := s },
       { st with recordings := jsSet st.recordings id { r with status := s } }) ∧
     jsGet (Mem.updateRecordingStatus id s st).2.recordings id =
       some { r with status := s } ∧
     ∀ j, j ≠ id → jsGet (Mem.updateRecordingStatus id s st).2.recordings j =
       jsGet st.recordings j) ∧
    (Mem.updateRecordingTranscribed id b1 st =
      (some { r with transcribed := b1 },
       { st with
          recordings := jsSet st.recordings id { r with transcribed := b1 } }) ∧
     jsGet (Mem.updateRecordingTranscribed id b1 st).2.recordings id =
       some { r with transcribed := b1 } ∧
     ∀ j, j ≠ id →
       jsGet (Mem.updateRecordingTranscribed id b1 st).2.recordings j =
         jsGet st.recordings j) ∧
    (Mem.updateRecordingNotesGenerated id b2 st =
      (some { r with notesGenerated := b2 },
       { st with
          recordings := jsSet st.recordings id { r with notesGenerated := b2 } }) ∧
     jsGet (Mem.updateRecordingNotesGenerated id b2 st).2.recordings id =
       some { r with notesGenerated := b2 } ∧
     ∀ j, j ≠ id →
       jsGet (Mem.updateRecordingNotesGenerated id b2 st).2.recordings j =
         jsGet st.recordings j) ∧
    (Mem.updateRecordingTitle id ti st =
      (some { r with title := ti },
       { st with recordings := jsSet st.recordings id { r with title := ti } }) ∧
     jsGet (Mem.updateRecordingTitle id ti st).2.recordings id =
       some { r with title := ti } ∧
     ∀ j, j ≠ id → jsGet (Mem.updateRecordingTitle id ti st).2.recordings j =
       jsGet st.recordings j) := by
  have e1 : Mem.updateRecordingStatus id s st =
      (some { r with status := s },
       { st with recordings := jsSet st.recordings id { r with status := s } }) := by
    unfold Mem.updateRecordingStatus
    rw [h]
  have e2 : Mem.updateRecordingTranscribed id b1 st =
      (some { r with transcribed := b1 },
       { st with
          recordings := jsSet st.recordings id { r with transcribed := b1 } }) := by
    unfold Mem.updateRecordingTranscribed
    rw [h]
  have e3 : Mem.updateRecordingNotesGenerated id b2 st =
      (some { r with notesGenerated := b2 },
       { st with
          recordings := jsSet st.recordings id { r with notesGenerated := b2 } }) := by
    unfold Mem.updateRecordingNotesGenerated
    rw [h]
  have e4 : Mem.updateRecordingTitle id ti st =
      (some { r with title := ti },
       { st with recordings := jsSet st.recordings id { r with title := ti } }) := by
    unfold Mem.updateRecordingTitle
    rw [h]
  refine ⟨⟨e1, ?_, ?_⟩, ⟨e2, ?_, ?_⟩, ⟨e3, ?_, ?_⟩, ⟨e4, ?_, ?_⟩⟩
  · rw [e1]; exact jsGet_jsSet_self _ _ _
  · intro j hj; rw [e1]; exact jsGet_jsSet_ne _ _ hj
  · rw [e2]; exact jsGet_jsSet_self _ _ _
  · intro j hj; rw [e2]; exact jsGet_jsSet_ne _ _ hj
  · rw [e3]; exact jsGet_jsSet_self _ _ _
  · intro j hj; rw [e3]; exact jsGet_jsSet_ne _ _ hj
  · rw [e4]; exact jsGet_jsSet_self _ _ _
  · intro j hj; rw [e4]; exact jsGet_jsSet_ne _ _ hj

/-- C8 witness: concrete instance on a one-recording state. -/
theorem C8_witness :
    Mem.updateRecordingTitle 1 "new"
        ((Mem.createRecording 0
          { title := "t", filename := "f", fileSize := 1, fileFormat := "MP3"
            status := "pending" } St.init).2) =
      (some { id := 1, title := "new", filename := "f", fileSize := 1
              fileFormat := "MP3", duration := none, status := "pending"
              transcribed := false, notesGenerated := false, createdAt := 0 },
       { (Mem.createRecording 0
          { title := "t", filename := "f", fileSize := 1, fileFormat := "MP3"
            status := "pending" } St.init).2 with
         recordings := jsSet (Mem.createRecording 0
          { title := "t", filename := "f", fileSize := 1, fileFormat := "MP3"
            status := "pending" } St.init).2.recordings 1
            { id := 1, title := "new", filename := "f", fileSize := 1
              fileFormat := "MP3", duration := none, status := "pending"
              transcribed := false, notesGenerated := false, createdAt := 0 } }) :=
  ((C8_updates_frame ((Mem.createRecording 0
      { title := "t", filename := "f", fileSize := 1, fileFormat := "MP3"
        status := "pending" } St.init).2) 1
    { id := 1, title := "t", filename := "f", fileSize := 1
      fileFormat := "MP3", duration := none, status := "pending"
      transcribed := false, notesGenerated := false, createdAt := 0 }
    "s" "new" true true (by decide)).2.2.2).1

/-- C9: `deleteRecording` returns `false` exactly when no recording with
the id is stored, and in that case — as for every update method, which
returns `undefined` exactly when the record is missing — the whole state
is left completely unchanged. -/
theorem C9_missing_id_noop (st : St) (id : Nat) (s ti : String)
    (b1 b2 : Bool) (c : String) :
    ((Mem.deleteRecording id st).1 = false ↔ jsGet st.recordings id = none) ∧
    (jsGet st.recordings id = none →
      Mem.deleteRecording id st = (false, st) ∧
      Mem.updateRecordingStatus id s st = (none, st) ∧
      Mem.updateRecordingTranscribed id b1 st = (none, st) ∧
      Mem.updateRecordingNotesGenerated id b2 st = (none, st) ∧
      Mem.updateRecordingTitle id ti st = (none, st)) ∧
    ((Mem.updateRecordingStatus id s st).1 = none ↔
      jsGet st.recordings id = none) ∧
    ((Mem.updateRecordingTranscribed id b1 st).1 = none ↔
      jsGet st.recordings id = none) ∧
    ((Mem.updateRecordingNotesGenerated id b2 st).1 = none ↔
      jsGet st.recordings id = none) ∧
    ((Mem.updateRecordingTitle id ti st).1 = none ↔
      jsGet st.recordings id = none) ∧
    ((Mem.updateNote id c st).1 = none ↔ jsGet st.notes id = none) ∧
    (jsGet st.notes id = none → Mem.updateNote id c st = (none, st)) := by
  cases hr : jsGet st.recordings id with
  | none =>
    cases hn : jsGet st.notes id with
    | none =>
      refine ⟨?_, ?_, ?_, ?_, ?_, ?_, ?_, ?_⟩ <;>
        simp [Mem.deleteRecording, Mem.updateRecordingStatus,
          Mem.updateRecordingTranscribed, Mem.updateRecordingNotesGenerated,
          Mem.updateRecordingTitle, Mem.updateNote, hr, hn]
    | some n =>
      refine ⟨?_, ?_, ?_, ?_, ?_, ?_, ?_, ?_⟩ <;>
        simp [Mem.deleteRecording, Mem.updateRecordingStatus,
          Mem.updateRecordingTranscribed, Mem.updateRecordingNotesGenerated,
          Mem.updateRecordingTitle, Mem.updateNote, hr, hn]
  | some r =>
    have hdel : (Mem.deleteRecording id st).1 = true := by
      unfold Mem.deleteRecording
      rw [hr]
      show jsHasKey
        (Mem.noteCascade id (Mem.transcriptCascade id st)).recordings id = true
      rw [cascades_recordings]
      exact jsHasKey_of_jsGet_some hr
    cases hn : jsGet st.notes id with
    | none =>
      refine ⟨?_, ?_, ?_, ?_, ?_, ?_, ?_, ?_⟩ <;>
        simp [hdel, Mem.updateRecordingStatus,
          Mem.updateRecordingTranscribed, Mem.updateRecordingNotesGenerated,
          Mem.updateRecordingTitle, Mem.updateNote, hr, hn]
    | some n =>
      refine ⟨?_, ?_, ?_, ?_, ?_, ?_, ?_, ?_⟩ <;>
        simp [hdel, Mem.updateRecordingStatus,
          Mem.updateRecordingTranscribed, Mem.updateRecordingNotesGenerated,
          Mem.updateRecordingTitle, Mem.updateNote, hr, hn]

/-- C9 witness: on the empty state every mutation with id `1` is a no-op
returning the miss value. -/
theorem C9_witness :
    Mem.deleteRecording 1 St.init = (false, St.init) ∧
    Mem.updateRecordingStatus 1 "s" St.init = (none, St.init) ∧
    Mem.updateNote 1 "c" St.init = (none, St.init) :=
  ⟨((C9_missing_id_noop St.init 1 "s" "t" true true "c").2.1 (by decide)).1,
   ((C9_missing_id_noop St.init 1 "s" "t" true true "c").2.1 (by decide)).2.1,
   (C9_missing_id_noop St.init 1 "s" "t" true true "c").2.2.2.2.2.2.2
     (by decide)⟩

/-- C10: `getAllRecordings` returns exactly the stored recordings (a
permutation of the map's values), sorted by `createdAt` newest first; the
hybrid module's variant computes the same list. -/
theorem C10_getAllRecordings_sorted (st : St) :
    List.Perm (Mem.getAllRecordings st) (jsValues st.recordings) ∧
    List.Pairwise descBy (Mem.getAllRecordings st) ∧
    HMem.getAllRecordings st = Mem.getAllRecordings st :=
  ⟨sortDesc_perm _, sortDesc_pairwise _, rfl⟩

end ClassNote
